import Mathlib

/-!
  # Verification of the multipart-upload WASM core

  Shallow embedding of `src/lib.rs` (an S3/MinIO multipart-upload client):
  the SigV4 signing chain, the four operation builders (Initiate, UploadPart,
  Complete, Abort), the cancellation-aware dispatch wrapper and the
  incremental hasher, together with proofs of the specification's claims
  about them.

  Strings are modelled as `List Char` (`Str`); Rust byte strings as
  `List Nat` with each element a byte value.  All arithmetic of the hash
  functions is `Nat` arithmetic reduced modulo `2 ^ 32`.
-/

set_option maxRecDepth 100000
set_option maxHeartbeats 4000000

namespace UploaderWasm

/-- Strings, modelled as lists of characters. -/
abbrev Str := List Char

/-! ## Bytes, words and hex -/

/-- Truncate to a 32-bit word.  (The hash cores below call the `Nat`
primitives directly, keeping kernel evaluation of the test vectors cheap.) -/
def w32 (n : Nat) : Nat := Nat.mod n 4294967296

/-- Right rotation of a 32-bit word. -/
def rotr (r x : Nat) : Nat :=
  w32 (Nat.lor (Nat.shiftRight x r) (Nat.shiftLeft x (Nat.sub 32 r)))

/-- Three-way xor. -/
def xor3 (a b c : Nat) : Nat := Nat.xor (Nat.xor a b) c

/-- `k` bytes of `n`, big-endian. -/
def beBytes : Nat → Nat → List Nat
  | 0, _ => []
  | k + 1, n => beBytes k (Nat.div n 256) ++ [Nat.mod n 256]

/-- Lowercase hexadecimal digit. -/
def hexDigitL (n : Nat) : Char :=
  match n with
  | 0 => '0' | 1 => '1' | 2 => '2' | 3 => '3' | 4 => '4'
  | 5 => '5' | 6 => '6' | 7 => '7' | 8 => '8' | 9 => '9'
  | 10 => 'a' | 11 => 'b' | 12 => 'c' | 13 => 'd' | 14 => 'e' | _ => 'f'

/-- Uppercase hexadecimal digit (`encodeURIComponent` emits uppercase). -/
def hexDigitU (n : Nat) : Char :=
  match n with
  | 0 => '0' | 1 => '1' | 2 => '2' | 3 => '3' | 4 => '4'
  | 5 => '5' | 6 => '6' | 7 => '7' | 8 => '8' | 9 => '9'
  | 10 => 'A' | 11 => 'B' | 12 => 'C' | 13 => 'D' | 14 => 'E' | _ => 'F'

/-- One byte as two lowercase hex characters. -/
def byteHexL (b : Nat) : Str :=
  [hexDigitL (Nat.div b 16), hexDigitL (Nat.mod b 16)]

/-- `hex::encode`: a byte string as lowercase hex. -/
def hexEncode (bs : List Nat) : Str := (bs.map byteHexL).flatten

/-- UTF-8 bytes of a code point. -/
def utf8Bytes (n : Nat) : List Nat :=
  if n < 128 then [n]
  else if n < 2048 then [192 + n / 64, 128 + n % 64]
  else if n < 65536 then [224 + n / 4096, 128 + n / 64 % 64, 128 + n % 64]
  else [240 + n / 262144, 128 + n / 4096 % 64, 128 + n / 64 % 64, 128 + n % 64]

/-- UTF-8 encoding of a string (Rust's `str::as_bytes`). -/
def utf8Encode (s : Str) : List Nat :=
  (s.map (fun c => utf8Bytes c.toNat)).flatten

/-! ## SHA-256 (FIPS 180-4), as used by the `sha2` crate collaborator -/

/-- The 64 SHA-256 round constants `K₀…K₆₃` of FIPS 180-4 (the first 32
fractional bits of the cube roots of the first 64 primes), in decimal. -/
def sha256K : List Nat :=
  [1116352408, 1899447441, 3049323471, 3921009573, 961987163, 1508970993,
   2453635748, 2870763221, 3624381080, 310598401, 607225278, 1426881987,
   1925078388, 2162078206, 2614888103, 3248222580, 3835390401, 4022224774,
   264347078, 604807628, 770255983, 1249150122, 1555081692, 1996064986,
   2554220882, 2821834349, 2952996808, 3210313671, 3336571891, 3584528711,
   113926993, 338241895, 666307205, 773529912, 1294757372, 1396182291,
   1695183700, 1986661051, 2177026350, 2456956037, 2730485921, 2820302411,
   3259730800, 3345764771, 3516065817, 3600352804, 4094571909, 275423344,
   430227734, 506948616, 659060556, 883997877, 958139571, 1322822218,
   1537002063, 1747873779, 1955562222, 2024104815, 2227730452, 2361852424,
   2428436474, 2756734187, 3204031479, 3329325298]

/-- SHA-256 big sigma 0. -/
def bSig0 (x : Nat) : Nat := xor3 (rotr 2 x) (rotr 13 x) (rotr 22 x)

/-- SHA-256 big sigma 1. -/
def bSig1 (x : Nat) : Nat := xor3 (rotr 6 x) (rotr 11 x) (rotr 25 x)

/-- SHA-256 small sigma 0. -/
def sSig0 (x : Nat) : Nat :=
  xor3 (rotr 7 x) (rotr 18 x) (Nat.shiftRight x 3)

/-- SHA-256 small sigma 1. -/
def sSig1 (x : Nat) : Nat :=
  xor3 (rotr 17 x) (rotr 19 x) (Nat.shiftRight x 10)

/-- SHA-256 choice function. -/
def shaCh (e f g : Nat) : Nat :=
  Nat.xor (Nat.land e f) (Nat.land (Nat.xor e 4294967295) g)

/-- SHA-256 majority function. -/
def shaMaj (a b c : Nat) : Nat :=
  xor3 (Nat.land a b) (Nat.land a c) (Nat.land b c)

/-- Merkle–Damgård padding: `0x80`, zeros to 56 mod 64, 8-byte big-endian
bit length. -/
def sha256Pad (msg : List Nat) : List Nat :=
  msg ++ 128 ::
    List.replicate (Nat.mod (Nat.sub 119 (Nat.mod msg.length 64)) 64) 0 ++
    beBytes 8 (Nat.mul 8 msg.length)

/-- Split a byte string into 64-byte blocks (fuel-driven so that the
recursion is structural; `fuel = l.length` always suffices because every
step consumes at least one element). -/
def chunks64Aux : Nat → List Nat → List (List Nat)
  | 0, _ => []
  | _ + 1, [] => []
  | fuel + 1, a :: as => (a :: as).take 64 :: chunks64Aux fuel ((a :: as).drop 64)

/-- Split a byte string into 64-byte blocks. -/
def chunks64 (l : List Nat) : List (List Nat) := chunks64Aux l.length l

/-- Big-endian 32-bit words of a block. -/
def toWords : List Nat → List Nat
  | b0 :: b1 :: b2 :: b3 :: rest =>
      Nat.add (Nat.mul (Nat.add (Nat.mul (Nat.add (Nat.mul b0 256) b1) 256)
        b2) 256) b3 :: toWords rest
  | _ => []

/-- The extension words of the message schedule, computed from a sliding
window of the sixteen preceding words (`w0` the oldest, `w15` the newest):
`W[t] = σ1(W[t-2]) + W[t-7] + σ0(W[t-15]) + W[t-16]`. -/
def schedExt : Nat → Nat → Nat → Nat → Nat → Nat → Nat → Nat → Nat → Nat →
    Nat → Nat → Nat → Nat → Nat → Nat → Nat → List Nat
  | 0, _, _, _, _, _, _, _, _, _, _, _, _, _, _, _, _ => []
  | k + 1, w0, w1, w2, w3, w4, w5, w6, w7, w8, w9, w10, w11, w12, w13, w14,
      w15 =>
      let t := w32 (Nat.add (Nat.add (Nat.add (sSig1 w14) w9) (sSig0 w1)) w0)
      t :: schedExt k w1 w2 w3 w4 w5 w6 w7 w8 w9 w10 w11 w12 w13 w14 w15 t
termination_by structural k _ _ _ _ _ _ _ _ _ _ _ _ _ _ _ _ => k

/-- The 64-entry message schedule of a block: the sixteen message words
followed by the 48 extension words. -/
def sha256Schedule (block : List Nat) : List Nat :=
  match toWords block with
  | [m0, m1, m2, m3, m4, m5, m6, m7, m8, m9, m10, m11, m12, m13, m14, m15] =>
      [m0, m1, m2, m3, m4, m5, m6, m7, m8, m9, m10, m11, m12, m13, m14,
       m15] ++
      schedExt 48 m0 m1 m2 m3 m4 m5 m6 m7 m8 m9 m10 m11 m12 m13 m14 m15
  | _ => []

/-- The eight SHA-256 working variables. -/
structure Sha256State where
  a : Nat
  b : Nat
  c : Nat
  d : Nat
  e : Nat
  f : Nat
  g : Nat
  h : Nat
deriving Repr, DecidableEq

/-- The compression rounds: fold the paired round constants and schedule
words through the eight working variables (`t1 = h + Σ1(e) + Ch(e,f,g) + k
+ w`, `t2 = Σ0(a) + Maj(a,b,c)`). -/
def shaRounds : List Nat → List Nat → Nat → Nat → Nat → Nat → Nat → Nat →
    Nat → Nat → Sha256State
  | k :: ks, w :: ws, a, b, c, d, e, f, g, h =>
      let t1 := w32 (Nat.add (Nat.add (Nat.add (Nat.add h (bSig1 e))
        (shaCh e f g)) k) w)
      let t2 := w32 (Nat.add (bSig0 a) (shaMaj a b c))
      shaRounds ks ws (w32 (Nat.add t1 t2)) a b c (w32 (Nat.add d t1)) e f g
  | _, _, a, b, c, d, e, f, g, h => ⟨a, b, c, d, e, f, g, h⟩
termination_by structural ks _ _ _ _ _ _ _ _ _ => ks

/-- Compress one 64-byte block into the state. -/
def compressBlock (st : Sha256State) (block : List Nat) : Sha256State :=
  let fin := shaRounds sha256K (sha256Schedule block) st.a st.b st.c st.d
    st.e st.f st.g st.h
  ⟨w32 (Nat.add st.a fin.a), w32 (Nat.add st.b fin.b),
   w32 (Nat.add st.c fin.c), w32 (Nat.add st.d fin.d),
   w32 (Nat.add st.e fin.e), w32 (Nat.add st.f fin.f),
   w32 (Nat.add st.g fin.g), w32 (Nat.add st.h fin.h)⟩

/-- The SHA-256 initial hash value `H₀…H₇` of FIPS 180-4, in decimal. -/
def sha256Init : Sha256State :=
  ⟨1779033703, 3144134277, 1013904242, 2773480762,
   1359893119, 2600822924, 528734635, 1541459225⟩

/-- SHA-256 digest (32 bytes) of a byte string. -/
def sha256 (msg : List Nat) : List Nat :=
  let st := (chunks64 (sha256Pad msg)).foldl compressBlock sha256Init
  beBytes 4 st.a ++ beBytes 4 st.b ++ beBytes 4 st.c ++ beBytes 4 st.d ++
  beBytes 4 st.e ++ beBytes 4 st.f ++ beBytes 4 st.g ++ beBytes 4 st.h

/-! ## MD5 (RFC 1321), as used by the `md5` crate collaborator -/

/-- `k` bytes of `n`, little-endian. -/
def leBytes : Nat → Nat → List Nat
  | 0, _ => []
  | k + 1, n => Nat.mod n 256 :: leBytes k (Nat.div n 256)

/-- Left rotation of a 32-bit word. -/
def rotl (r x : Nat) : Nat :=
  w32 (Nat.lor (Nat.shiftLeft x r) (Nat.shiftRight x (Nat.sub 32 r)))

/-- The 64 MD5 sine-table constants. -/
def md5T : List Nat :=
  [0xd76aa478, 0xe8c7b756, 0x242070db, 0xc1bdceee, 0xf57c0faf, 0x4787c62a,
   0xa8304613, 0xfd469501, 0x698098d8, 0x8b44f7af, 0xffff5bb1, 0x895cd7be,
   0x6b901122, 0xfd987193, 0xa679438e, 0x49b40821, 0xf61e2562, 0xc040b340,
   0x265e5a51, 0xe9b6c7aa, 0xd62f105d, 0x02441453, 0xd8a1e681, 0xe7d3fbc8,
   0x21e1cde6, 0xc33707d6, 0xf4d50d87, 0x455a14ed, 0xa9e3e905, 0xfcefa3f8,
   0x676f02d9, 0x8d2a4c8a, 0xfffa3942, 0x8771f681, 0x6d9d6122, 0xfde5380c,
   0xa4beea44, 0x4bdecfa9, 0xf6bb4b60, 0xbebfbc70, 0x289b7ec6, 0xeaa127fa,
   0xd4ef3085, 0x04881d05, 0xd9d4d039, 0xe6db99e5, 0x1fa27cf8, 0xc4ac5665,
   0xf4292244, 0x432aff97, 0xab9423a7, 0xfc93a039, 0x655b59c3, 0x8f0ccc92,
   0xffeff47d, 0x85845dd1, 0x6fa87e4f, 0xfe2ce6e0, 0xa3014314, 0x4e0811a1,
   0xf7537e82, 0xbd3af235, 0x2ad7d2bb, 0xeb86d391]

/-- The 64 MD5 per-round rotation amounts. -/
def md5S : List Nat :=
  [7, 12, 17, 22, 7, 12, 17, 22, 7, 12, 17, 22, 7, 12, 17, 22,
   5, 9, 14, 20, 5, 9, 14, 20, 5, 9, 14, 20, 5, 9, 14, 20,
   4, 11, 16, 23, 4, 11, 16, 23, 4, 11, 16, 23, 4, 11, 16, 23,
   6, 10, 15, 21, 6, 10, 15, 21, 6, 10, 15, 21, 6, 10, 15, 21]

/-- MD5 round function, per quarter. -/
def md5F (i b c d : Nat) : Nat :=
  if i < 16 then Nat.lor (Nat.land b c) (Nat.land (Nat.xor b 4294967295) d)
  else if i < 32 then
    Nat.lor (Nat.land d b) (Nat.land (Nat.xor d 4294967295) c)
  else if i < 48 then xor3 b c d
  else Nat.xor c (Nat.lor b (Nat.xor d 4294967295))

/-- MD5 message-word index, per quarter. -/
def md5G (i : Nat) : Nat :=
  if i < 16 then i
  else if i < 32 then Nat.mod (Nat.add (Nat.mul 5 i) 1) 16
  else if i < 48 then Nat.mod (Nat.add (Nat.mul 3 i) 5) 16
  else Nat.mod (Nat.mul 7 i) 16

/-- Little-endian 32-bit words of a block. -/
def leWords : List Nat → List Nat
  | b0 :: b1 :: b2 :: b3 :: rest =>
      Nat.add b0 (Nat.mul 256 (Nat.add b1 (Nat.mul 256 (Nat.add b2
        (Nat.mul 256 b3))))) :: leWords rest
  | _ => []

/-- The four MD5 working variables. -/
structure Md5State where
  a : Nat
  b : Nat
  c : Nat
  d : Nat
deriving Repr, DecidableEq

/-- The MD5 operations: consume the sine-table and shift-amount lists in
step with the round index `i` (`a = b + rotl(a + F + T[i] + M[g(i)], s)`,
then rotate the registers). -/
def md5Rounds (m : List Nat) : Nat → List Nat → List Nat → Md5State →
    Md5State
  | i, t :: ts, s :: ss, st =>
      let x := w32 (Nat.add (Nat.add (Nat.add st.a (md5F i st.b st.c st.d))
        t) (m.getD (md5G i) 0))
      md5Rounds m (Nat.add i 1) ts ss
        ⟨st.d, w32 (Nat.add st.b (rotl s x)), st.b, st.c⟩
  | _, _, _, st => st
termination_by structural _ ts _ _ => ts

/-- Compress one 64-byte block into the MD5 state. -/
def md5CompressBlock (st : Md5State) (block : List Nat) : Md5State :=
  let fin := md5Rounds (leWords block) 0 md5T md5S st
  ⟨w32 (Nat.add st.a fin.a), w32 (Nat.add st.b fin.b),
   w32 (Nat.add st.c fin.c), w32 (Nat.add st.d fin.d)⟩

/-- MD5 padding: `0x80`, zeros to 56 mod 64, 8-byte little-endian bit
length. -/
def md5Pad (msg : List Nat) : List Nat :=
  msg ++ 128 ::
    List.replicate (Nat.mod (Nat.sub 119 (Nat.mod msg.length 64)) 64) 0 ++
    leBytes 8 (Nat.mul 8 msg.length)

/-- The MD5 initial state. -/
def md5Init : Md5State := ⟨0x67452301, 0xefcdab89, 0x98badcfe, 0x10325476⟩

/-- MD5 digest (16 bytes) of a byte string. -/
def md5 (msg : List Nat) : List Nat :=
  let st := (chunks64 (md5Pad msg)).foldl md5CompressBlock md5Init
  leBytes 4 st.a ++ leBytes 4 st.b ++ leBytes 4 st.c ++ leBytes 4 st.d

/-! ## HMAC-SHA256 (RFC 2104), modelling `Uploader::hmac_sha256` -/

/-- HMAC-SHA256 of a message under a key of any length, as computed by
`Uploader::hmac_sha256` through the `hmac` crate. -/
def hmac_sha256 (key data : List Nat) : List Nat :=
  let k0 := if 64 < key.length then sha256 key else key
  let kp := k0 ++ List.replicate (64 - k0.length) 0
  sha256 ((kp.map (fun b => Nat.xor b 92)) ++
          sha256 ((kp.map (fun b => Nat.xor b 54)) ++ data))

/-! ## The SigV4 signer: `Uploader::get_signature` -/

/-- `Uploader::get_signature`: derive the signing key by the four-step
HMAC-SHA256 chain over `"AWS4" + secret_key`, date stamp, region, `"s3"` and
`"aws4_request"`, then return the lowercase-hex HMAC of the string to sign.
`secret_key` and `region` are the `Uploader` fields of those names. -/
def get_signature (secret_key region : Str) (datestamp string_to_sign : Str) :
    Str :=
  let k_date := hmac_sha256 (utf8Encode ("AWS4".data ++ secret_key))
                  (utf8Encode datestamp)
  let k_region := hmac_sha256 k_date (utf8Encode region)
  let k_service := hmac_sha256 k_region (utf8Encode "s3".data)
  let k_signing := hmac_sha256 k_service (utf8Encode "aws4_request".data)
  hexEncode (hmac_sha256 k_signing (utf8Encode string_to_sign))

/-- The string to sign of the published AWS SigV4 S3 example (GET of
`test.txt` from `examplebucket`, 20130524, us-east-1). -/
def awsExampleStringToSign : Str :=
  ("AWS4-HMAC-SHA256\n20130524T000000Z\n20130524/us-east-1/s3/aws4_request\n" ++
   "7344ae5b7ee6c3e7e6b0fe0640412a37625d1fbfff95c48bbb2dc43964946972").data

/-! ## String helpers mirroring the Rust `str` operations used by the source -/

/-- The double-quote character. -/
def quoteChar : Char := Char.ofNat 34

/-- Does `pat` start the list `l`? -/
def startsWithL : Str → Str → Bool
  | [], _ => true
  | _ :: _, [] => false
  | a :: as, b :: bs => a == b && startsWithL as bs

/-- `str::find` for a pattern: index of the first occurrence of `pat`. -/
def findSub (pat : Str) : Str → Option Nat
  | [] => if pat.isEmpty then some 0 else none
  | c :: cs =>
      if startsWithL pat (c :: cs) then some 0
      else (findSub pat cs).map (· + 1)

/-- Does `needle` occur as a contiguous substring of the second argument? -/
def containsSub (needle : Str) : Str → Bool
  | [] => needle.isEmpty
  | c :: cs => startsWithL needle (c :: cs) || containsSub needle cs

/-- `str::split` on a single character: the separated fields, keeping empty
ones (`"".split(c)` is `[""]`, a trailing separator yields a trailing empty
field). -/
def splitOnChar (sep : Char) : Str → List Str
  | [] => [[]]
  | c :: cs =>
      if c == sep then [] :: splitOnChar sep cs
      else
        match splitOnChar sep cs with
        | [] => [[c]]
        | h :: t => (c :: h) :: t

/-- Join fields with a separating character (inverse of `splitOnChar` on
separator-free fields). -/
def intercalateChar (sep : Char) : List Str → Str
  | [] => []
  | [x] => x
  | x :: xs => x ++ sep :: intercalateChar sep xs

/-- `str::trim_start_matches` on a character pattern: remove every leading
occurrence. -/
def trimStartChar (p : Char) (s : Str) : Str := s.dropWhile (· == p)

/-- `str::trim_end_matches` on a character pattern: remove every trailing
occurrence. -/
def trimEndChar (p : Char) (s : Str) : Str :=
  (s.reverse.dropWhile (· == p)).reverse

/-- One decimal digit character. -/
def dchar (n : Nat) : Char :=
  match n with
  | 0 => '0' | 1 => '1' | 2 => '2' | 3 => '3' | 4 => '4'
  | 5 => '5' | 6 => '6' | 7 => '7' | 8 => '8' | _ => '9'

/-- Decimal rendering, fuel-driven (`fuel = n + 1` always suffices since the
argument shrinks by a factor of ten each step). -/
def natStrAux : Nat → Nat → Str
  | 0, _ => []
  | fuel + 1, n =>
      if n < 10 then [dchar n] else natStrAux fuel (n / 10) ++ [dchar (n % 10)]

/-- Rust's `Display` for unsigned integers: decimal, no sign, no leading
zeros (as produced by `format!("{}", n)`). -/
def natStr (n : Nat) : Str := natStrAux (n + 1) n

/-! ## `encodeURIComponent`

Modelled from the spec: the source calls the JavaScript builtin
`js_sys::encode_uri_component`, which is not part of this repository; this
definition follows ECMA-262's `encodeURIComponent`, which leaves the
characters `A–Z a–z 0–9 - _ . ! ~ * ' ( )` unescaped and replaces every
other character by the `%XX` uppercase-hex encoding of each of its UTF-8
bytes. -/

/-- Characters `encodeURIComponent` leaves unescaped (ECMA-262
`uriUnescaped`): ASCII letters and digits and `- _ . ! ~ * ' ( )`. -/
def uriUnescaped (c : Char) : Bool :=
  let n := c.toNat
  (65 ≤ n && n ≤ 90) || (97 ≤ n && n ≤ 122) || (48 ≤ n && n ≤ 57) ||
  n == 45 || n == 95 || n == 46 || n == 33 || n == 126 || n == 42 ||
  n == 39 || n == 40 || n == 41

/-- One byte as a `%XX` escape, uppercase hex. -/
def percentByte (b : Nat) : Str := ['%', hexDigitU (b / 16), hexDigitU (b % 16)]

/-- `encodeURIComponent` on one character. -/
def encodeChar (c : Char) : Str :=
  if uriUnescaped c then [c]
  else ((utf8Bytes c.toNat).map percentByte).flatten

/-- `js_sys::encode_uri_component`, modelled from ECMA-262 (see above). -/
def encode_uri_component (s : Str) : Str := (s.map encodeChar).flatten

/-! ## Request construction shared by the four operations -/

/-- The canonical headers block built by every operation (lines 248–251,
412–415, 607–610 of `lib.rs`): the four signed headers, lower-case, each
terminated by a newline. -/
def canonical_headers (host content_sha256 amz_date session_token : Str) :
    Str :=
  "host:".data ++ host ++ "\nx-amz-content-sha256:".data ++ content_sha256 ++
  "\nx-amz-date:".data ++ amz_date ++ "\nx-amz-security-token:".data ++
  session_token ++ "\n".data

/-- The signed-header list used by every operation. -/
def signed_headers : Str :=
  "host;x-amz-content-sha256;x-amz-date;x-amz-security-token".data

/-- The canonical request: the six components joined by single newlines
(`format!("{}\n{}\n{}\n{}\n{}\n{}", ...)`). -/
def canonical_request (method uri query headers signed payload_hash : Str) :
    Str :=
  method ++ "\n".data ++ uri ++ "\n".data ++ query ++ "\n".data ++ headers ++
  "\n".data ++ signed ++ "\n".data ++ payload_hash

/-- `Response::ok`: status in the 2xx range. -/
def statusOk (status : Nat) : Bool := 200 ≤ status && status ≤ 299

/-! ## `Uploader::upload_part` (request construction and response
handling) -/

/-- Line 244: `object_key.trim_start_matches('/')`. -/
def clean_object_key (object_key : Str) : Str := trimStartChar '/' object_key

/-- Line 233: the UploadPart query string,
`partNumber=<n>&uploadId=<encodeURIComponent id>`; the same string is signed
and appended to the URL. -/
def upload_part_query (part_number : Nat) (upload_id : Str) : Str :=
  "partNumber=".data ++ natStr part_number ++ "&uploadId=".data ++
  encode_uri_component upload_id

/-- Line 245: the UploadPart canonical URI `/{bucket}/{clean_object_key}`. -/
def upload_part_canonical_uri (bucket object_key : Str) : Str :=
  '/' :: bucket ++ '/' :: clean_object_key object_key

/-- Lines 254–257: the UploadPart canonical request. -/
def upload_part_canonical_request (bucket object_key : Str)
    (part_number : Nat)
    (upload_id host content_sha256 amz_date session_token : Str) : Str :=
  canonical_request "PUT".data (upload_part_canonical_uri bucket object_key)
    (upload_part_query part_number upload_id)
    (canonical_headers host content_sha256 amz_date session_token)
    signed_headers content_sha256

/-- Line 285: the UploadPart request URL
`{endpoint.trim_end_matches('/')}/{bucket}/{clean_object_key}?{query}`. -/
def upload_part_url (endpoint bucket object_key : Str) (part_number : Nat)
    (upload_id : Str) : Str :=
  trimEndChar '/' endpoint ++ '/' :: bucket ++ '/' ::
    clean_object_key object_key ++ '?' ::
    upload_part_query part_number upload_id

/-- Line 304: `etag.replace("\"", "")` removes every double-quote
character. -/
def strip_etag (etag : Str) : Str := etag.filter (fun c => c != quoteChar)

/-- Line 299: the UploadPart non-2xx error message. -/
def upload_part_err_msg (status : Nat) (detail : Str) : Str :=
  "MinIO upload failed with status: ".data ++ natStr status ++
  ", detail: ".data ++ detail

/-- Lines 297–304: UploadPart response handling — non-2xx fails with the
status/detail message, a 2xx without `ETag` fails with `"No ETag"`, and a
2xx with `ETag` returns the header value with its quotes removed. -/
def upload_part_handle (status : Nat) (body : Str)
    (etag_header : Option Str) : Except Str Str :=
  if statusOk status then
    match etag_header with
    | some etag => .ok (strip_etag etag)
    | none => .error "No ETag".data
  else .error (upload_part_err_msg status body)

/-! ## `Uploader::initiate_multipart_upload` -/

/-- Line 398: the signed Initiate query string (`uploads=`). -/
def initiate_canonical_querystring : Str := "uploads=".data

/-- Line 399: the Initiate URL query (`uploads`). -/
def initiate_query_for_url : Str := "uploads".data

/-- Line 409: the Initiate canonical URI `/{bucket}/{object_key}` — the key
is spliced in verbatim. -/
def initiate_canonical_uri (bucket object_key : Str) : Str :=
  '/' :: bucket ++ '/' :: object_key

/-- Line 443: the Initiate request URL. -/
def initiate_url (endpoint bucket object_key : Str) : Str :=
  trimEndChar '/' endpoint ++ '/' :: bucket ++ '/' :: object_key ++ '?' ::
    initiate_query_for_url

/-- Line 456: the Initiate non-2xx error message. -/
def initiate_err_msg (status : Nat) (detail : Str) : Str :=
  "MinIO Error (".data ++ natStr status ++ "): ".data ++ detail

/-- The opening marker searched for in the Initiate response body. -/
def openUploadIdTag : Str := "<UploadId>".data

/-- The closing marker searched for in the Initiate response body. -/
def closeUploadIdTag : Str := "</UploadId>".data

/-- Outcome of Initiate response handling.  `panicked` records that the Rust
code indexes the body with `text[start_idx + 10..end_idx]`, which panics
when the slice bounds are inverted. -/
inductive InitiateOutcome where
  | ok (upload_id : Str)
  | err (msg : Str)
  | panicked
deriving Repr, DecidableEq

/-- Lines 462–467: extract the text between the first `<UploadId>` and the
first `</UploadId>`.  If either marker is absent the protocol error
`"UploadId not found: {text}"` is produced; if both are present but the
first `</UploadId>` starts before the end of the first `<UploadId>`, the
slice `text[start_idx + 10..end_idx]` has inverted bounds and the Rust code
panics. -/
def extract_upload_id (text : Str) : InitiateOutcome :=
  match findSub openUploadIdTag text, findSub closeUploadIdTag text with
  | some start_idx, some end_idx =>
      if start_idx + 10 ≤ end_idx then
        .ok ((text.drop (start_idx + 10)).take (end_idx - (start_idx + 10)))
      else .panicked
  | _, _ => .err ("UploadId not found: ".data ++ text)

/-- Lines 454–467: Initiate response handling. -/
def initiate_handle (status : Nat) (body : Str) : InitiateOutcome :=
  if statusOk status then extract_upload_id body
  else .err (initiate_err_msg status body)

/-! ## `Uploader::complete_multipart_upload` -/

/-- Line 506: the Complete query string — the upload id is NOT
percent-encoded on this path. -/
def complete_query (upload_id : Str) : Str := "uploadId=".data ++ upload_id

/-- Line 522: one `<Part>` element; the ETag is re-wrapped in literal
double quotes. -/
def part_xml (part_number etag : Str) : Str :=
  "<Part><PartNumber>".data ++ part_number ++
  "</PartNumber><ETag>\"".data ++ etag ++ "\"</ETag></Part>".data

/-- Lines 518–524: one comma-separated item of `parts_data` contributes a
`<Part>` element exactly when it splits on `':'` into exactly two fields,
and nothing otherwise. -/
def item_xml (item : Str) : Str :=
  match splitOnChar ':' item with
  | [pn, etag] => part_xml pn etag
  | _ => []

/-- Lines 517–525: the Complete XML body — the wrapper element around the
concatenated per-item elements (the `push_str` loop concatenates them in
item order). -/
def xml_body (parts_data : Str) : Str :=
  "<CompleteMultipartUpload>".data ++
  ((splitOnChar ',' parts_data).map item_xml).flatten ++
  "</CompleteMultipartUpload>".data

/-- Line 530: the Complete canonical URI `/{bucket}/{object_key}` — the key
is spliced in verbatim. -/
def complete_canonical_uri (bucket object_key : Str) : Str :=
  '/' :: bucket ++ '/' :: object_key

/-- Line 547: the Complete request URL — the endpoint is used verbatim (no
trailing-slash trim on this path). -/
def complete_url (endpoint bucket object_key upload_id : Str) : Str :=
  endpoint ++ '/' :: bucket ++ '/' :: object_key ++ '?' ::
    complete_query upload_id

/-- Line 575: the final access URL returned on success. -/
def complete_result_url (endpoint bucket object_key : Str) : Str :=
  endpoint ++ '/' :: bucket ++ '/' :: object_key

/-- Lines 567–571: the Complete non-2xx error message. -/
def complete_err_msg (status : Nat) (detail : Str) : Str :=
  "Complete multipart upload failed (".data ++ natStr status ++ "): ".data ++
  detail

/-- Lines 562–576: Complete response handling. -/
def complete_handle (status : Nat) (body : Str)
    (endpoint bucket object_key : Str) : Except Str Str :=
  if statusOk status then .ok (complete_result_url endpoint bucket object_key)
  else .error (complete_err_msg status body)

/-! ## `Uploader::abort_multipart_upload` -/

/-- Line 740: the Abort query string, upload id percent-encoded. -/
def abort_query (upload_id : Str) : Str :=
  "uploadId=".data ++ encode_uri_component upload_id

/-- Line 744: the Abort canonical URI `/{bucket}/{object_key}` — the key is
spliced in verbatim. -/
def abort_canonical_uri (bucket object_key : Str) : Str :=
  '/' :: bucket ++ '/' :: object_key

/-- Line 761: the Abort request URL. -/
def abort_url (endpoint bucket object_key upload_id : Str) : Str :=
  trimEndChar '/' endpoint ++ '/' :: bucket ++ '/' :: object_key ++ '?' ::
    abort_query upload_id

/-- Line 773: the fixed Abort failure message — it carries neither the
status code nor the response body. -/
def abort_err_msg : Str := "Abort multipart upload failed".data

/-- Lines 772–776: Abort response handling. -/
def abort_handle (status : Nat) : Except Str Unit :=
  if statusOk status then .ok () else .error abort_err_msg

/-! ## `Uploader::fetch_with_abort_handling` -/

/-- A JavaScript value as the dispatch wrapper distinguishes them: a plain
string, a `DomException` (with its `name`), or anything else. -/
inductive JsVal where
  | str (s : Str)
  | domException (name message : Str)
  | other (tag : Nat)
deriving Repr, DecidableEq

/-- Modelled from the spec: per the DOM and Fetch standards (the browser
transport is not part of this repository), a fetch rejected because its
`AbortSignal` — the externally supplied cancellation token — fired rejects
with a `DOMException` whose `name` is `"AbortError"`. -/
def isAbortRejection : JsVal → Bool
  | .domException name _ => name == "AbortError".data
  | _ => false

/-- Lines 676–683: `handle_fetch_error` — a rejection that is a
`DomException` named `AbortError` becomes the `"USER_CANCELED"` sentinel;
every other rejection is returned unchanged. -/
def handle_fetch_error : JsVal → JsVal
  | .domException name message =>
      if name == "AbortError".data then .str "USER_CANCELED".data
      else .domException name message
  | .str s => .str s
  | .other t => .other t

/-! ## `IncrementalHasher`

The `sha2`/`md5` streaming contexts held by the Rust struct are external
crates; a streaming context is modelled by the byte string fed to it so
far (the crates' documented contract: feeding chunks is equivalent to
feeding their concatenation). -/

/-- The streaming hasher: both digest contexts, each modelled by its
accumulated input. -/
structure IncrementalHasher where
  sha256_msg : List Nat
  md5_msg : List Nat
deriving Repr, DecidableEq

/-- `IncrementalHasher::new`: both contexts empty. -/
def IncrementalHasher.new : IncrementalHasher := ⟨[], []⟩

/-- `IncrementalHasher::update`: feed one chunk to both contexts. -/
def IncrementalHasher.update (h : IncrementalHasher) (chunk : List Nat) :
    IncrementalHasher :=
  ⟨h.sha256_msg ++ chunk, h.md5_msg ++ chunk⟩

/-- `IncrementalHasher::finalize_sha256`: lowercase-hex SHA-256 of all bytes
seen so far; the Rust method clones the context (`&self`), so the state is
untouched — here, a pure function of the state. -/
def IncrementalHasher.finalize_sha256 (h : IncrementalHasher) : Str :=
  hexEncode (sha256 h.sha256_msg)

/-- `IncrementalHasher::finalize_md5`: lowercase-hex MD5 of all bytes seen
so far; likewise non-destructive. -/
def IncrementalHasher.finalize_md5 (h : IncrementalHasher) : Str :=
  hexEncode (md5 h.md5_msg)

/-! ## Definitions following the spec's words (for comparison) -/

/-- Modelled from the spec: "strips surrounding double quotes" — remove one
leading and one trailing quote when both are present, leaving interior
characters untouched. -/
def strip_surrounding_quotes (s : Str) : Str :=
  if 2 ≤ s.length && s.head? == some quoteChar &&
      s.getLast? == some quoteChar then
    (s.drop 1).dropLast
  else s

/-- Render a list of (part number, ETag) pairs in the `parts_data` wire
format documented at line 481 of `lib.rs`:
`"partNumber:etag,partNumber:etag,..."`. -/
def parts_data_of_list (parts : List (Nat × Str)) : Str :=
  intercalateChar ',' (parts.map (fun p => natStr p.1 ++ ':' :: p.2))

/-! # Theorems

First the supporting lemmas, then one theorem per claim of the
specification (with witnesses and counterexamples where called for). -/

/-- NIST vector: SHA-256 of the empty string (the constant hard-coded in
`initiate_multipart_upload` and `abort_multipart_upload`). -/
theorem sha256_empty_vector :
    hexEncode (sha256 []) =
      "e3b0c44298fc1c149afbf4c8996fb92427ae41e4649b934ca495991b7852b855".data := by
  decide

/-- NIST vector: SHA-256 of `"abc"`. -/
theorem sha256_abc_vector :
    hexEncode (sha256 (utf8Encode "abc".data)) =
      "ba7816bf8f01cfea414140de5dae2223b00361a396177a9cb410ff61f20015ad".data := by
  decide

/-- RFC 1321 vector: MD5 of the empty string. -/
theorem md5_empty_vector :
    hexEncode (md5 []) = "d41d8cd98f00b204e9800998ecf8427e".data := by
  decide

/-- RFC 1321 vector: MD5 of `"abc"`. -/
theorem md5_abc_vector :
    hexEncode (md5 (utf8Encode "abc".data)) =
      "900150983cd24fb0d6963f7d28e17f72".data := by
  decide

/-- RFC 4231 test case 2: HMAC-SHA256 with key `"Jefe"` and message
`"what do ya want for nothing?"`. -/
theorem hmac_sha256_rfc4231_vector :
    hexEncode (hmac_sha256 (utf8Encode "Jefe".data)
        (utf8Encode "what do ya want for nothing?".data)) =
      "5bdcc146bf60754e6a042426089575c75a003f089d2739839dec58b964ec3843".data := by
  decide

/-- Claim C1: the signer computes the signature by the four-step HMAC-SHA256
chain `kDate = HMAC("AWS4"+secretKey, dateStamp)`, `kRegion = HMAC(kDate,
region)`, `kService = HMAC(kRegion, "s3")`, `kSigning = HMAC(kService,
"aws4_request")`, returning `hex(HMAC(kSigning, stringToSign))`; and on the
published AWS SigV4 S3 test vector (secret key
`wJalrXUtnFEMI/K7MDENG/bPxRfiCYEXAMPLEKEY`, date `20130524`, region
`us-east-1`) it reproduces the published signature
`f0e8bdb87c964420e857bd35b5d6ed310bd44f0170aba48dd91039c6036bdb41`
exactly. -/
theorem get_signature_four_step_chain_and_aws_vector :
    (∀ secret_key region datestamp string_to_sign : Str,
      get_signature secret_key region datestamp string_to_sign =
        hexEncode (hmac_sha256
          (hmac_sha256
            (hmac_sha256
              (hmac_sha256
                (hmac_sha256 (utf8Encode ("AWS4".data ++ secret_key))
                  (utf8Encode datestamp))
                (utf8Encode region))
              (utf8Encode "s3".data))
            (utf8Encode "aws4_request".data))
          (utf8Encode string_to_sign))) ∧
    get_signature "wJalrXUtnFEMI/K7MDENG/bPxRfiCYEXAMPLEKEY".data
        "us-east-1".data "20130524".data awsExampleStringToSign =
      "f0e8bdb87c964420e857bd35b5d6ed310bd44f0170aba48dd91039c6036bdb41".data := by
  refine ⟨fun _ _ _ _ => rfl, ?_⟩
  decide

/-- Folding chunks into the hasher accumulates their concatenation. -/
theorem foldl_update_eq (chunks : List (List Nat)) (h : IncrementalHasher) :
    chunks.foldl IncrementalHasher.update h =
      ⟨h.sha256_msg ++ chunks.flatten, h.md5_msg ++ chunks.flatten⟩ := by
  induction chunks generalizing h with
  | nil => simp
  | cons c cs ih => simp [IncrementalHasher.update, ih, List.append_assoc]

/-- Claim C8: the incremental hasher's finalizers return the lowercase-hex
digest over all bytes seen so far and are pure (non-destructive): chunked
updates accumulate by concatenation, so feeding `"AB"` as `("A","B")` yields
the same digests as one `"AB"` call, and the empty hasher yields the
well-known empty-input digests. -/
theorem incremental_hasher_accumulates_and_finalize_pure :
    (∀ (h : IncrementalHasher) (c1 c2 : List Nat),
        (h.update c1).update c2 = h.update (c1 ++ c2)) ∧
    (∀ chunks : List (List Nat),
        (chunks.foldl IncrementalHasher.update
            IncrementalHasher.new).finalize_sha256 =
          hexEncode (sha256 chunks.flatten) ∧
        (chunks.foldl IncrementalHasher.update
            IncrementalHasher.new).finalize_md5 =
          hexEncode (md5 chunks.flatten)) ∧
    ((IncrementalHasher.new.update (utf8Encode "A".data)).update
        (utf8Encode "B".data)).finalize_sha256 =
      (IncrementalHasher.new.update (utf8Encode "AB".data)).finalize_sha256 ∧
    ((IncrementalHasher.new.update (utf8Encode "A".data)).update
        (utf8Encode "B".data)).finalize_md5 =
      (IncrementalHasher.new.update (utf8Encode "AB".data)).finalize_md5 ∧
    IncrementalHasher.new.finalize_sha256 =
      "e3b0c44298fc1c149afbf4c8996fb92427ae41e4649b934ca495991b7852b855".data ∧
    IncrementalHasher.new.finalize_md5 =
      "d41d8cd98f00b204e9800998ecf8427e".data := by
  refine ⟨?_, ?_, ?_, ?_, sha256_empty_vector, md5_empty_vector⟩
  · intro h c1 c2
    simp [IncrementalHasher.update, List.append_assoc]
  · intro chunks
    rw [foldl_update_eq]
    exact ⟨rfl, rfl⟩
  · exact congrArg IncrementalHasher.finalize_sha256 (by decide)
  · exact congrArg IncrementalHasher.finalize_md5 (by decide)

/-- The abort sentinel differs from the UploadPart HTTP-error message. -/
theorem sentinel_ne_upload_part_err (status : Nat) (detail : Str) :
    "USER_CANCELED".data ≠ upload_part_err_msg status detail := by
  intro h
  exact absurd
    (show (some 'U' : Option Char) = some 'M' from congrArg List.head? h)
    (by decide)

/-- The abort sentinel differs from the Initiate HTTP-error message. -/
theorem sentinel_ne_initiate_err (status : Nat) (detail : Str) :
    "USER_CANCELED".data ≠ initiate_err_msg status detail := by
  intro h
  exact absurd
    (show (some 'U' : Option Char) = some 'M' from congrArg List.head? h)
    (by decide)

/-- The abort sentinel differs from the Complete HTTP-error message. -/
theorem sentinel_ne_complete_err (status : Nat) (detail : Str) :
    "USER_CANCELED".data ≠ complete_err_msg status detail := by
  intro h
  exact absurd
    (show (some 'U' : Option Char) = some 'C' from congrArg List.head? h)
    (by decide)

/-- Claim C7: the dispatch wrapper resolves a rejection to the
`"USER_CANCELED"` sentinel exactly when the rejection is the cancellation
token's abort (a `DomException` named `AbortError`), and propagates every
other rejection unchanged; the sentinel is distinct from every HTTP-error
message of the four operations, so a canceled call never resolves to an
HTTP or transport error. -/
theorem fetch_dispatch_cancellation_exact :
    (∀ e : JsVal,
        handle_fetch_error e =
          if isAbortRejection e then .str "USER_CANCELED".data else e) ∧
    (∀ (status : Nat) (detail : Str),
        "USER_CANCELED".data ≠ upload_part_err_msg status detail ∧
        "USER_CANCELED".data ≠ initiate_err_msg status detail ∧
        "USER_CANCELED".data ≠ complete_err_msg status detail) ∧
    "USER_CANCELED".data ≠ abort_err_msg := by
  refine ⟨?_, ?_, by decide⟩
  · intro e
    cases e with
    | str s => rfl
    | other t => rfl
    | domException name message =>
        by_cases h : (name == "AbortError".data) = true
        · simp [handle_fetch_error, isAbortRejection, h]
        · simp only [Bool.not_eq_true] at h
          simp [handle_fetch_error, isAbortRejection, h]
  · intro status detail
    exact ⟨sentinel_ne_upload_part_err status detail,
           sentinel_ne_initiate_err status detail,
           sentinel_ne_complete_err status detail⟩

/-- Witness for C7: an `AbortError` rejection becomes the sentinel, and the
sentinel is not the abort HTTP-error message. -/
theorem fetch_dispatch_cancellation_exact_witness :
    handle_fetch_error
        (JsVal.domException "AbortError".data
          "The user aborted a request.".data) =
      .str "USER_CANCELED".data ∧
    "USER_CANCELED".data ≠ upload_part_err_msg 500 "boom".data :=
  ⟨(fetch_dispatch_cancellation_exact.1 _).trans (by decide),
   (fetch_dispatch_cancellation_exact.2.1 500 "boom".data).1⟩

/-- A string starts with itself followed by anything. -/
theorem startsWithL_append_self (n b : Str) : startsWithL n (n ++ b) = true := by
  induction n with
  | nil => rfl
  | cons a as ih => simp [List.cons_append, startsWithL, ih]

/-- A string that starts with `n` contains `n`. -/
theorem containsSub_of_starts (n l : Str) (h : startsWithL n l = true) :
    containsSub n l = true := by
  cases l with
  | nil =>
      cases n with
      | nil => rfl
      | cons a as => simp [startsWithL] at h
  | cons c cs => simp [containsSub, h]

/-- `a ++ (n ++ b)` contains `n`. -/
theorem containsSub_middle (a n b : Str) :
    containsSub n (a ++ (n ++ b)) = true := by
  induction a with
  | nil => exact containsSub_of_starts n (n ++ b) (startsWithL_append_self n b)
  | cons x xs ih => simp [List.cons_append, containsSub, ih]

/-- `a ++ n` contains `n`. -/
theorem containsSub_append_self (a n : Str) : containsSub n (a ++ n) = true := by
  have h := containsSub_middle a n []
  simpa using h

/-- An item that does not split on `':'` into exactly two fields contributes
nothing to the Complete XML body. -/
theorem item_xml_eq_nil_of_malformed (item : Str)
    (h : (splitOnChar ':' item).length ≠ 2) : item_xml item = [] := by
  cases hs : splitOnChar ':' item with
  | nil => simp [item_xml, hs]
  | cons a tl =>
      cases tl with
      | nil => simp [item_xml, hs]
      | cons b tl2 =>
          cases tl2 with
          | nil => rw [hs] at h; simp at h
          | cons c tl3 => simp [item_xml, hs]

/-- Concatenating the per-item elements over all items equals concatenating
them over just the well-formed items. -/
theorem flatten_item_xml_filter (items : List Str) :
    (items.map item_xml).flatten =
      ((items.filter
          (fun item => (splitOnChar ':' item).length == 2)).map
        item_xml).flatten := by
  induction items with
  | nil => rfl
  | cons it its ih =>
      by_cases h : ((splitOnChar ':' it).length == 2) = true
      · simp [List.filter_cons, h, ih]
      · have hne : (splitOnChar ':' it).length ≠ 2 := by simpa using h
        simp [List.filter_cons, h, item_xml_eq_nil_of_malformed it hne, ih]

/-- Claim C10: the Complete XML body includes exactly the comma-separated
items that split on `':'` into two fields; every other item is silently
omitted, so a malformed parts list still yields a well-formed body with
those parts missing (shown concretely for
`"1:e1,,bad,2:e2:x,3:e3"`). -/
theorem complete_skips_malformed_items :
    (∀ parts_data : Str,
        xml_body parts_data =
          "<CompleteMultipartUpload>".data ++
          (((splitOnChar ',' parts_data).filter
              (fun item => (splitOnChar ':' item).length == 2)).map
            item_xml).flatten ++
          "</CompleteMultipartUpload>".data) ∧
    xml_body "1:e1,,bad,2:e2:x,3:e3".data =
      ("<CompleteMultipartUpload>" ++
       "<Part><PartNumber>1</PartNumber><ETag>\"e1\"</ETag></Part>" ++
       "<Part><PartNumber>3</PartNumber><ETag>\"e3\"</ETag></Part>" ++
       "</CompleteMultipartUpload>").data := by
  refine ⟨fun parts_data => ?_, by decide⟩
  unfold xml_body
  rw [flatten_item_xml_filter]

/-- Counterexample for C4: on the header value `"a"b"` (which carries an
interior quote), `upload_part` removes every quote and returns `ab`,
whereas stripping only the surrounding quotes would return `a"b`. -/
theorem etag_strip_counterexample :
    strip_etag "\"a\"b\"".data = "ab".data ∧
    strip_surrounding_quotes "\"a\"b\"".data = "a\"b".data ∧
    strip_etag "\"a\"b\"".data ≠ strip_surrounding_quotes "\"a\"b\"".data := by
  refine ⟨by decide, by decide, by decide⟩

/-- Claim C4 as amended: `upload_part` removes every double-quote character
from the ETag header value — which coincides with stripping the surrounding
quotes whenever the value is quote-wrapped with no interior quotes — and
`complete_multipart_upload` re-wraps each supplied ETag in literal double
quotes inside the XML body. -/
theorem etag_all_quotes_removed_and_rewrapped :
    (∀ etag : Str, strip_etag etag = etag.filter (fun c => c != quoteChar)) ∧
    (∀ inner : Str, quoteChar ∉ inner →
        strip_etag (quoteChar :: inner ++ [quoteChar]) = inner ∧
        strip_surrounding_quotes (quoteChar :: inner ++ [quoteChar]) =
          inner) ∧
    (∀ part_number etag : Str,
        part_xml part_number etag =
          "<Part><PartNumber>".data ++ part_number ++
          "</PartNumber><ETag>".data ++ quoteChar :: etag ++ quoteChar ::
          "</ETag></Part>".data) := by
  refine ⟨fun _ => rfl, ?_, ?_⟩
  case refine_2 =>
    intro part_number etag
    have hB : "</PartNumber><ETag>\"".data =
        "</PartNumber><ETag>".data ++ [quoteChar] := by decide
    have hC : "\"</ETag></Part>".data =
        quoteChar :: "</ETag></Part>".data := by decide
    unfold part_xml
    rw [hB, hC]
    simp [List.append_assoc, List.cons_append, List.singleton_append]
  intro inner h
  have hf : inner.filter (fun c => c != quoteChar) = inner :=
    List.filter_eq_self.mpr (fun c hc => by
      simp only [bne_iff_ne, ne_eq, decide_eq_true_eq]
      exact fun heq => h (heq ▸ hc))
  constructor
  · simp [strip_etag, List.filter_cons, List.filter_append, hf]
  · unfold strip_surrounding_quotes
    rw [if_pos]
    · show (inner ++ [quoteChar]).dropLast = inner
      exact List.dropLast_concat
    · simp only [Bool.and_eq_true, decide_eq_true_eq, beq_iff_eq]
      refine ⟨⟨?_, rfl⟩, ?_⟩
      · simp only [List.cons_append, List.length_cons, List.length_append,
          List.length_singleton]
        omega
      · show ((quoteChar :: inner) ++ [quoteChar]).getLast? = some quoteChar
        exact List.getLast?_concat _

/-- Witness for C4 (amended): a quote-wrapped hex ETag comes back with
exactly its surrounding quotes removed. -/
theorem etag_all_quotes_removed_witness :
    quoteChar ∉ "d41d8cd98f00b204e9800998ecf8427e".data ∧
    strip_etag (quoteChar :: "d41d8cd98f00b204e9800998ecf8427e".data ++
        [quoteChar]) = "d41d8cd98f00b204e9800998ecf8427e".data :=
  ⟨by decide,
   (etag_all_quotes_removed_and_rewrapped.2.1
      "d41d8cd98f00b204e9800998ecf8427e".data (by decide)).1⟩

/-- Counterexample for C6: a non-2xx Abort response (status 403, body
`denied`) fails with the fixed message `Abort multipart upload failed`,
which carries neither the status code nor the response body. -/
theorem abort_error_counterexample :
    abort_handle 403 = .error abort_err_msg ∧
    containsSub (natStr 403) abort_err_msg = false ∧
    containsSub "denied".data abort_err_msg = false := by
  refine ⟨rfl, by decide, by decide⟩

/-- Claim C6 as amended: on a non-2xx response, Initiate, UploadPart and
Complete fail with an error message carrying both the status code and the
store-provided body text verbatim, but Abort fails with a fixed message
carrying neither. -/
theorem http_errors_carry_status_and_body_except_abort :
    (∀ (status : Nat) (body : Str) (etag_header : Option Str),
        statusOk status = false →
        upload_part_handle status body etag_header =
          .error (upload_part_err_msg status body) ∧
        containsSub (natStr status) (upload_part_err_msg status body) =
          true ∧
        containsSub body (upload_part_err_msg status body) = true) ∧
    (∀ (status : Nat) (body : Str),
        statusOk status = false →
        initiate_handle status body = .err (initiate_err_msg status body) ∧
        containsSub (natStr status) (initiate_err_msg status body) = true ∧
        containsSub body (initiate_err_msg status body) = true) ∧
    (∀ (status : Nat) (body endpoint bucket object_key : Str),
        statusOk status = false →
        complete_handle status body endpoint bucket object_key =
          .error (complete_err_msg status body) ∧
        containsSub (natStr status) (complete_err_msg status body) = true ∧
        containsSub body (complete_err_msg status body) = true) ∧
    (∀ status : Nat, statusOk status = false →
        abort_handle status = .error abort_err_msg) := by
  refine ⟨?_, ?_, ?_, ?_⟩
  · intro status body etag_header h
    refine ⟨by simp [upload_part_handle, h], ?_, ?_⟩
    · have hs := containsSub_middle "MinIO upload failed with status: ".data
        (natStr status) (", detail: ".data ++ body)
      simpa [upload_part_err_msg, List.append_assoc] using hs
    · have hb := containsSub_append_self
        ("MinIO upload failed with status: ".data ++ natStr status ++
          ", detail: ".data) body
      simpa [upload_part_err_msg, List.append_assoc] using hb
  · intro status body h
    refine ⟨by simp [initiate_handle, h], ?_, ?_⟩
    · have hs := containsSub_middle "MinIO Error (".data (natStr status)
        ("): ".data ++ body)
      simpa [initiate_err_msg, List.append_assoc] using hs
    · have hb := containsSub_append_self
        ("MinIO Error (".data ++ natStr status ++ "): ".data) body
      simpa [initiate_err_msg, List.append_assoc] using hb
  · intro status body endpoint bucket object_key h
    refine ⟨by simp [complete_handle, h], ?_, ?_⟩
    · have hs := containsSub_middle
        "Complete multipart upload failed (".data (natStr status)
        ("): ".data ++ body)
      simpa [complete_err_msg, List.append_assoc] using hs
    · have hb := containsSub_append_self
        ("Complete multipart upload failed (".data ++ natStr status ++
          "): ".data) body
      simpa [complete_err_msg, List.append_assoc] using hb
  · intro status h
    simp [abort_handle, h]

/-- Witness for C6 (amended): UploadPart at status 403 with body `denied`
fails with a message containing `403` and `denied`. -/
theorem http_errors_carry_status_witness :
    statusOk 403 = false ∧
    upload_part_handle 403 "denied".data none =
      .error (upload_part_err_msg 403 "denied".data) ∧
    containsSub (natStr 403) (upload_part_err_msg 403 "denied".data) =
      true ∧
    containsSub "denied".data (upload_part_err_msg 403 "denied".data) =
      true :=
  ⟨by decide,
   (http_errors_carry_status_and_body_except_abort.1 403 "denied".data none
      (by decide)).1,
   (http_errors_carry_status_and_body_except_abort.1 403 "denied".data none
      (by decide)).2.1,
   (http_errors_carry_status_and_body_except_abort.1 403 "denied".data none
      (by decide)).2.2⟩

/-- After trimming leading slashes, a string does not start with a slash. -/
theorem trimStartChar_slash_head (s : Str) :
    ((trimStartChar '/' s).head? == some '/') = false := by
  induction s with
  | nil => rfl
  | cons c cs ih =>
      by_cases hc : (c == '/') = true
      · simpa [trimStartChar, List.dropWhile_cons, hc] using ih
      · simp only [trimStartChar, List.dropWhile_cons, if_neg hc]
        show (c == '/') = false
        simpa using hc

/-- After trimming trailing slashes, a string does not end with a slash. -/
theorem trimEndChar_slash_getLast (s : Str) :
    ((trimEndChar '/' s).getLast? == some '/') = false := by
  unfold trimEndChar
  rw [List.getLast?_reverse]
  exact trimStartChar_slash_head s.reverse

/-- Counterexample for C3: Initiate with bucket `b` and leading-slash key
`/k` builds the canonical URI `/b//k` (a double slash) and the URL
`http://h/b//k?uploads`; Complete with a trailing-slash endpoint builds
`http://h//b/k?uploadId=u`. -/
theorem double_slash_counterexample :
    initiate_canonical_uri "b".data "/k".data = "/b//k".data ∧
    containsSub "//".data (initiate_canonical_uri "b".data "/k".data) =
      true ∧
    initiate_url "http://h".data "b".data "/k".data =
      "http://h/b//k?uploads".data ∧
    complete_url "http://h/".data "b".data "k".data "u".data =
      "http://h//b/k?uploadId=u".data := by
  refine ⟨by decide, by decide, by decide, by decide⟩

/-- Claim C3 as amended: only UploadPart normalizes — it strips every
leading slash from the key and every trailing slash from the endpoint, so
its canonical URI and request URL have exactly one slash at each junction;
Initiate, Complete and Abort splice the object key verbatim into
`/{bucket}/{key}` (so a leading-slash key yields a double slash), and
Complete additionally uses the endpoint verbatim in its URL (so a
trailing-slash endpoint yields a double slash there; Initiate and Abort do
trim the endpoint). -/
theorem slash_normalization_only_in_upload_part :
    (∀ object_key : Str,
        ((trimStartChar '/' object_key).head? == some '/') = false) ∧
    (∀ endpoint : Str,
        ((trimEndChar '/' endpoint).getLast? == some '/') = false) ∧
    (∀ bucket object_key : Str,
        upload_part_canonical_uri bucket object_key =
          '/' :: bucket ++ '/' :: trimStartChar '/' object_key) ∧
    (∀ (endpoint bucket object_key : Str) (part_number : Nat)
        (upload_id : Str),
        upload_part_url endpoint bucket object_key part_number upload_id =
          trimEndChar '/' endpoint ++ '/' :: bucket ++ '/' ::
            trimStartChar '/' object_key ++ '?' ::
            upload_part_query part_number upload_id) ∧
    (∀ bucket object_key : Str,
        initiate_canonical_uri bucket object_key =
          '/' :: bucket ++ '/' :: object_key ∧
        complete_canonical_uri bucket object_key =
          '/' :: bucket ++ '/' :: object_key ∧
        abort_canonical_uri bucket object_key =
          '/' :: bucket ++ '/' :: object_key) ∧
    (∀ endpoint bucket object_key upload_id : Str,
        complete_url endpoint bucket object_key upload_id =
          endpoint ++ '/' :: bucket ++ '/' :: object_key ++ '?' ::
            complete_query upload_id) ∧
    (∀ endpoint bucket object_key : Str,
        initiate_url endpoint bucket object_key =
          trimEndChar '/' endpoint ++ '/' :: bucket ++ '/' :: object_key ++
            '?' :: initiate_query_for_url) ∧
    (∀ endpoint bucket object_key upload_id : Str,
        abort_url endpoint bucket object_key upload_id =
          trimEndChar '/' endpoint ++ '/' :: bucket ++ '/' :: object_key ++
            '?' :: abort_query upload_id) :=
  ⟨trimStartChar_slash_head, trimEndChar_slash_getLast,
   fun _ _ => rfl, fun _ _ _ _ _ => rfl, fun _ _ => ⟨rfl, rfl, rfl⟩,
   fun _ _ _ _ => rfl, fun _ _ _ => rfl, fun _ _ _ _ => rfl⟩

/-- Every hex digit character is one of `0123456789ABCDEF`. -/
theorem hexDigitU_mem (n : Nat) : hexDigitU n ∈ "0123456789ABCDEF".data := by
  rcases n with _|_|_|_|_|_|_|_|_|_|_|_|_|_|_|m <;>
    first
      | decide
      | exact (by decide : ('F' : Char) ∈ "0123456789ABCDEF".data)

/-- Every character emitted by `encodeChar` is unescaped, a percent sign,
or an uppercase hex digit — no raw escaped character survives. -/
theorem mem_encodeChar (c x : Char) (h : x ∈ encodeChar c) :
    uriUnescaped x = true ∨ x = '%' ∨ x ∈ "0123456789ABCDEF".data := by
  unfold encodeChar at h
  by_cases hu : uriUnescaped c = true
  · rw [if_pos hu] at h
    rw [List.mem_singleton] at h
    exact Or.inl (h ▸ hu)
  · rw [if_neg hu] at h
    rcases List.mem_flatten.mp h with ⟨l, hl, hx⟩
    rcases List.mem_map.mp hl with ⟨b, _, rfl⟩
    simp only [percentByte, List.mem_cons, List.mem_singleton,
      List.not_mem_nil, or_false] at hx
    rcases hx with rfl | rfl | rfl
    · exact Or.inr (Or.inl rfl)
    · exact Or.inr (Or.inr (hexDigitU_mem _))
    · exact Or.inr (Or.inr (hexDigitU_mem _))

/-- A nonempty pattern is found at index 0 of any of its extensions. -/
theorem findSub_append_self (pat rest : Str) (h : pat ≠ []) :
    findSub pat (pat ++ rest) = some 0 := by
  cases pat with
  | nil => exact absurd rfl h
  | cons p ps =>
      have hs := startsWithL_append_self (p :: ps) rest
      rw [List.cons_append] at hs
      simp [List.cons_append, findSub, hs]

/-- Claim C2: the UploadPart query string — as signed in the canonical
request and as appended to the request URL — is exactly
`partNumber=<n>&uploadId=<encoded id>` with `partNumber` first, the upload
id percent-encoded so that no character outside the unescaped set survives
raw; concretely, part 2 with upload id `id==` yields
`partNumber=2&uploadId=id%3D%3D`. -/
theorem upload_part_query_partNumber_first_and_encoded :
    (∀ (part_number : Nat) (upload_id : Str),
        upload_part_query part_number upload_id =
          "partNumber=".data ++ natStr part_number ++ "&uploadId=".data ++
            encode_uri_component upload_id ∧
        findSub "partNumber=".data
            (upload_part_query part_number upload_id) = some 0) ∧
    (∀ (bucket object_key : Str) (part_number : Nat)
        (upload_id host content_sha256 amz_date session_token endpoint :
          Str),
        upload_part_canonical_request bucket object_key part_number
            upload_id host content_sha256 amz_date session_token =
          canonical_request "PUT".data
            (upload_part_canonical_uri bucket object_key)
            (upload_part_query part_number upload_id)
            (canonical_headers host content_sha256 amz_date session_token)
            signed_headers content_sha256 ∧
        upload_part_url endpoint bucket object_key part_number upload_id =
          trimEndChar '/' endpoint ++ '/' :: bucket ++ '/' ::
            clean_object_key object_key ++ '?' ::
            upload_part_query part_number upload_id) ∧
    (∀ (upload_id : Str) (c : Char), c ∈ encode_uri_component upload_id →
        uriUnescaped c = true ∨ c = '%' ∨ c ∈ "0123456789ABCDEF".data) ∧
    upload_part_query 2 "id==".data =
      "partNumber=2&uploadId=id%3D%3D".data := by
  refine ⟨?_, fun _ _ _ _ _ _ _ _ _ => ⟨rfl, rfl⟩, ?_, by decide⟩
  · intro part_number upload_id
    refine ⟨rfl, ?_⟩
    simp only [upload_part_query, List.append_assoc]
    exact findSub_append_self "partNumber=".data _ (by decide)
  · intro upload_id c h
    rcases List.mem_flatten.mp h with ⟨l, hl, hx⟩
    rcases List.mem_map.mp hl with ⟨c0, _, rfl⟩
    exact mem_encodeChar c0 c hx

/-- Witness for C2: the percent sign found in the encoding of `id==`
satisfies the no-raw-escaped-character property. -/
theorem upload_part_query_encoded_witness :
    '%' ∈ encode_uri_component "id==".data ∧
    (uriUnescaped '%' = true ∨ '%' = '%' ∨
      '%' ∈ "0123456789ABCDEF".data) :=
  ⟨by decide,
   upload_part_query_partNumber_first_and_encoded.2.2.1 "id==".data '%'
     (by decide)⟩

/-- `splitOnChar` always returns at least one field. -/
theorem splitOnChar_ne_nil (sep : Char) (l : Str) : splitOnChar sep l ≠ [] := by
  cases l with
  | nil => simp [splitOnChar]
  | cons c cs =>
      unfold splitOnChar
      by_cases h : (c == sep) = true
      · rw [if_pos h]; simp
      · rw [if_neg h]
        cases hs : splitOnChar sep cs <;> simp

/-- The cons equation of `splitOnChar`, for head-occurrence rewriting. -/
theorem splitOnChar_cons (sep c : Char) (cs : Str) :
    splitOnChar sep (c :: cs) =
      if c == sep then [] :: splitOnChar sep cs
      else
        match splitOnChar sep cs with
        | [] => [[c]]
        | h :: t => (c :: h) :: t := rfl

/-- Splitting after a separator-free leading segment prefixes that segment
to the first field of the remainder's split. -/
theorem splitOnChar_append_of_no_sep (sep : Char) (a rest : Str)
    (h : ∀ c ∈ a, c ≠ sep) :
    splitOnChar sep (a ++ rest) =
      (splitOnChar sep rest).modifyHead (a ++ ·) := by
  induction a with
  | nil =>
      simp only [List.nil_append]
      cases hs : splitOnChar sep rest with
      | nil => simp [List.modifyHead]
      | cons hd tl => simp [List.modifyHead]
  | cons x xs ih =>
      have hx : (x == sep) = false := by
        have hmem := h x (List.mem_cons_self x xs)
        simpa using hmem
      rw [List.cons_append, splitOnChar_cons, if_neg (by simp [hx]),
        ih (fun c hc => h c (List.mem_cons_of_mem _ hc))]
      cases hs : splitOnChar sep rest with
      | nil => exact absurd hs (splitOnChar_ne_nil sep rest)
      | cons hd tl => simp [List.modifyHead, List.cons_append]

/-- A separator-free string splits into the single field itself. -/
theorem splitOnChar_of_no_sep (sep : Char) (a : Str)
    (h : ∀ c ∈ a, c ≠ sep) : splitOnChar sep a = [a] := by
  have ha := splitOnChar_append_of_no_sep sep a [] h
  simpa [splitOnChar, List.modifyHead] using ha

/-- Two separator-free fields around one separator split into exactly those
two fields. -/
theorem splitOnChar_pair (sep : Char) (a b : Str)
    (ha : ∀ c ∈ a, c ≠ sep) (hb : ∀ c ∈ b, c ≠ sep) :
    splitOnChar sep (a ++ sep :: b) = [a, b] := by
  rw [splitOnChar_append_of_no_sep sep a (sep :: b) ha]
  have hsb : splitOnChar sep (sep :: b) = [] :: splitOnChar sep b := by
    rw [splitOnChar_cons, if_pos (by simp)]
  rw [hsb, splitOnChar_of_no_sep sep b hb]
  simp [List.modifyHead]

/-- Splitting is a left inverse of joining on separator-free fields. -/
theorem splitOnChar_intercalate (sep : Char) (xs : List Str) (hne : xs ≠ [])
    (h : ∀ x ∈ xs, ∀ c ∈ x, c ≠ sep) :
    splitOnChar sep (intercalateChar sep xs) = xs := by
  induction xs with
  | nil => exact absurd rfl hne
  | cons x xs ih =>
      cases xs with
      | nil =>
          exact splitOnChar_of_no_sep sep x (h x (List.mem_cons_self x []))
      | cons y ys =>
          have hx : ∀ c ∈ x, c ≠ sep := h x (by simp)
          rw [show intercalateChar sep (x :: y :: ys) =
                x ++ sep :: intercalateChar sep (y :: ys) from rfl]
          rw [splitOnChar_append_of_no_sep sep x _ hx]
          have hys : splitOnChar sep (sep :: intercalateChar sep (y :: ys)) =
              [] :: splitOnChar sep (intercalateChar sep (y :: ys)) := by
            rw [splitOnChar_cons, if_pos (by simp)]
          rw [hys,
            ih (by simp) (fun z hz => h z (List.mem_cons_of_mem _ hz))]
          simp [List.modifyHead]

/-- Every character of a decimal rendering is a digit. -/
theorem natStrAux_digits (fuel : Nat) :
    ∀ n, ∀ c ∈ natStrAux fuel n, c ∈ "0123456789".data := by
  induction fuel with
  | zero => intro n c hc; simp [natStrAux] at hc
  | succ fuel ih =>
      intro n c hc
      unfold natStrAux at hc
      by_cases h : n < 10
      · rw [if_pos h] at hc
        rw [List.mem_singleton] at hc
        subst hc
        rcases n with _|_|_|_|_|_|_|_|_|_|m <;>
          first
            | decide
            | exact (by decide : ('9' : Char) ∈ "0123456789".data)
      · rw [if_neg h] at hc
        rcases List.mem_append.mp hc with h1 | h2
        · exact ih (n / 10) c h1
        · rw [List.mem_singleton] at h2
          subst h2
          rcases hm : n % 10 with _|_|_|_|_|_|_|_|_|_|m <;>
            first
              | decide
              | exact (by decide : ('9' : Char) ∈ "0123456789".data)

/-- A decimal rendering contains neither a comma nor a colon. -/
theorem natStr_no_comma_colon (n : Nat) :
    ∀ c ∈ natStr n, c ≠ ',' ∧ c ≠ ':' := by
  intro c hc
  have hd := natStrAux_digits (n + 1) n c hc
  constructor <;> intro heq <;> subst heq <;> revert hd <;> decide

/-- A well-formed item `pn:etag` (both fields colon-free) contributes its
`<Part>` element. -/
theorem item_xml_wellformed (pn etag : Str) (hpn : ∀ c ∈ pn, c ≠ ':')
    (he : ∀ c ∈ etag, c ≠ ':') :
    item_xml (pn ++ ':' :: etag) = part_xml pn etag := by
  unfold item_xml
  rw [splitOnChar_pair ':' pn etag hpn he]

/-- Claim C5: for a caller-supplied list of (part number, etag) pairs
(etags free of the `,`/`:` wire delimiters), the Complete XML body is the
wrapper around one `<Part><PartNumber>n</PartNumber><ETag>"etag"</ETag>
</Part>` element per pair in the order supplied — no re-sorting, no
validation — and the pairs `[(1,"e1"),(2,"e2")]` produce exactly the
documented body. -/
theorem complete_xml_body_in_caller_order :
    (∀ parts : List (Nat × Str),
        (∀ p ∈ parts, ∀ c ∈ p.2, c ≠ ',' ∧ c ≠ ':') →
        xml_body (parts_data_of_list parts) =
          "<CompleteMultipartUpload>".data ++
          (parts.map (fun p => part_xml (natStr p.1) p.2)).flatten ++
          "</CompleteMultipartUpload>".data) ∧
    xml_body (parts_data_of_list [(1, "e1".data), (2, "e2".data)]) =
      ("<CompleteMultipartUpload><Part><PartNumber>1</PartNumber>" ++
       "<ETag>\"e1\"</ETag></Part><Part><PartNumber>2</PartNumber>" ++
       "<ETag>\"e2\"</ETag></Part></CompleteMultipartUpload>").data := by
  refine ⟨?_, by decide⟩
  intro parts h
  cases parts with
  | nil => decide
  | cons p ps =>
      unfold xml_body parts_data_of_list
      have hsep : ∀ x ∈ (p :: ps).map (fun q => natStr q.1 ++ ':' :: q.2),
          ∀ c ∈ x, c ≠ ',' := by
        intro x hx c hc
        rcases List.mem_map.mp hx with ⟨q, hq, rfl⟩
        rcases List.mem_append.mp hc with h1 | h2
        · exact (natStr_no_comma_colon q.1 c h1).1
        · rcases List.mem_cons.mp h2 with rfl | h3
          · decide
          · exact ((h q hq) c h3).1
      rw [splitOnChar_intercalate ',' _ (by simp) hsep]
      have hmap :
          ((p :: ps).map (fun q => natStr q.1 ++ ':' :: q.2)).map item_xml =
            (p :: ps).map (fun q => part_xml (natStr q.1) q.2) := by
        rw [List.map_map]
        exact List.map_congr_left (fun q hq =>
          item_xml_wellformed (natStr q.1) q.2
            (fun c hc => (natStr_no_comma_colon q.1 c hc).2)
            (fun c hc => ((h q hq) c hc).2))
      rw [hmap]

/-- Witness for C5: the two-pair list from the specification scenario
satisfies the delimiter-free hypothesis and yields the predicted body. -/
theorem complete_xml_body_in_caller_order_witness :
    (∀ p ∈ [((1 : Nat), "e1".data), (2, "e2".data)],
        ∀ c ∈ p.2, c ≠ ',' ∧ c ≠ ':') ∧
    xml_body (parts_data_of_list [((1 : Nat), "e1".data), (2, "e2".data)]) =
      "<CompleteMultipartUpload>".data ++
      ([((1 : Nat), "e1".data), (2, "e2".data)].map
          (fun p => part_xml (natStr p.1) p.2)).flatten ++
      "</CompleteMultipartUpload>".data :=
  ⟨by decide, complete_xml_body_in_caller_order.1 _ (by decide)⟩

/-- `startsWithL` means being an extension of the pattern. -/
theorem startsWithL_iff (pat : Str) :
    ∀ l, startsWithL pat l = true ↔ ∃ r, l = pat ++ r := by
  induction pat with
  | nil =>
      intro l
      constructor
      · intro _
        exact ⟨l, rfl⟩
      · intro _
        rfl
  | cons a as ih =>
      intro l
      cases l with
      | nil =>
          simp only [startsWithL, List.cons_append]
          constructor
          · intro hfalse; cases hfalse
          · rintro ⟨r, hr⟩; cases hr
      | cons b bs =>
          simp only [startsWithL, Bool.and_eq_true, beq_iff_eq, ih bs,
            List.cons_append, List.cons.injEq]
          constructor
          · rintro ⟨rfl, r, rfl⟩
            exact ⟨r, rfl, rfl⟩
          · rintro ⟨r, rfl, rfl⟩
            exact ⟨rfl, r, rfl⟩

/-- If `findSub` reports index `i`, the pattern occurs at `i`. -/
theorem findSub_sound (pat : Str) :
    ∀ (l : Str) (i : Nat), findSub pat l = some i →
      ∃ r, l.drop i = pat ++ r := by
  intro l
  induction l with
  | nil =>
      intro i h
      unfold findSub at h
      by_cases hp : pat.isEmpty = true
      · rw [if_pos hp] at h
        have hi : i = 0 := by simpa using h.symm
        subst hi
        have hpe : pat = [] := by simpa using hp
        exact ⟨[], by simp [hpe]⟩
      · rw [if_neg hp] at h
        cases h
  | cons c cs ih =>
      intro i h
      unfold findSub at h
      by_cases hs : startsWithL pat (c :: cs) = true
      · rw [if_pos hs] at h
        have hi : i = 0 := by simpa using h.symm
        subst hi
        simpa using (startsWithL_iff pat (c :: cs)).mp hs
      · rw [if_neg hs] at h
        obtain ⟨j, hj, rfl⟩ := Option.map_eq_some'.mp h
        exact ih j hj

/-- If the first `<UploadId>` strictly precedes the first `</UploadId>`,
the gap is at least the tag length: the closing tag cannot start inside the
opening tag, because none of the nine characters after `<` in `<UploadId>`
is `<`. -/
theorem uploadid_marker_gap (text : Str) (s e : Nat)
    (hs : findSub openUploadIdTag text = some s)
    (he : findSub closeUploadIdTag text = some e)
    (hlt : s < e) : s + 10 ≤ e := by
  by_contra hcon
  push_neg at hcon
  obtain ⟨r1, h1⟩ := findSub_sound _ _ _ hs
  obtain ⟨r2, h2⟩ := findSub_sound _ _ _ he
  obtain ⟨k, hk⟩ : ∃ k, e = s + k := ⟨e - s, by omega⟩
  subst hk
  have hlen : openUploadIdTag.length = 10 := by decide
  have h3 : text.drop (s + k) = openUploadIdTag.drop k ++ r1 := by
    rw [← List.drop_drop, h1,
      List.drop_append_of_le_length (by omega)]
  have h4 : closeUploadIdTag ++ r2 = openUploadIdTag.drop k ++ r1 :=
    h2.symm.trans h3
  have hk1 : 1 ≤ k := by omega
  have hk9 : k ≤ 9 := by omega
  interval_cases k <;>
    exact absurd
      (show (true : Bool) = false from
        congrArg (fun l : Str => l.head? == some '<') h4)
      (by decide)

/-- Claim C9: whenever both markers occur in a 2xx Initiate body and the
first `<UploadId>` precedes the first `</UploadId>`, exactly the text
between them is returned; but on the body `</UploadId><UploadId>` — both
markers present, closing first — the slice bounds invert and the code
panics instead of returning the protocol error. -/
theorem initiate_extracts_between_markers_or_panics :
    (∀ (text : Str) (s e : Nat),
        findSub openUploadIdTag text = some s →
        findSub closeUploadIdTag text = some e →
        s < e →
        extract_upload_id text =
          .ok ((text.drop (s + 10)).take (e - (s + 10)))) ∧
    extract_upload_id "</UploadId><UploadId>".data = .panicked := by
  refine ⟨?_, by decide⟩
  intro text s e hs he hlt
  have hle := uploadid_marker_gap text s e hs he hlt
  unfold extract_upload_id
  rw [hs, he]
  simp [hle]

/-- Witness for C9: the specification's scenario body yields upload id
`ABC123` through the theorem. -/
theorem initiate_extracts_between_markers_witness :
    findSub openUploadIdTag "<UploadId>ABC123</UploadId>".data = some 0 ∧
    findSub closeUploadIdTag "<UploadId>ABC123</UploadId>".data = some 16 ∧
    0 < 16 ∧
    extract_upload_id "<UploadId>ABC123</UploadId>".data =
      .ok (("<UploadId>ABC123</UploadId>".data.drop (0 + 10)).take
        (16 - (0 + 10))) :=
  ⟨by decide, by decide, by decide,
   initiate_extracts_between_markers_or_panics.1 _ 0 16 (by decide)
     (by decide) (by decide)⟩

end UploaderWasm
